import Mathlib

/-!
Shallow embedding of the vet-records-processing repository.

The repository is a Next.js app with three AI-extraction routes and a client
page.  The code embedded here:

* the date-centric extraction route (structured output): `CategorizedDate`,
  `deriveFAQsFromDates`, `findMostRecent`, the model fallback loop, the
  response-structure validation, and the request gate;
* the legacy summary route: its model fallback loop (which aborts on
  non-rate-limit errors) and request gate;
* the OpenAI text-extraction route: `extractTextFromPdf` over pdfjs pages and
  its PDF-file gate;
* the client page: `mergeFiles`.

Strings are Lean `String`s; JavaScript `toLowerCase` is modelled by ASCII
lower-casing (the needles and tags matched are ASCII), `includes` /
`endsWith` / `trim` by list-of-character operations, `localeCompare` on
ISO-format date strings by the lexicographic order on `String` (on ASCII
digit/hyphen strings of one format the two orders agree), and the
(ES2019-stable) `Array.prototype.sort` by `List.mergeSort`.
-/

namespace VetRecords

/-- JavaScript `haystack.includes(needle)`: substring containment. -/
def strIncludes (s pat : String) : Bool :=
  decide (pat.toList <:+: s.toList)

/-- ASCII lower-casing of one character (the strings the routes match are
ASCII, so this models JavaScript `toLowerCase` on them). -/
def charToLower (c : Char) : Char :=
  if 65 ≤ c.toNat && c.toNat ≤ 90 then Char.ofNat (c.toNat + 32) else c

/-- JavaScript `s.toLowerCase()` on ASCII strings. -/
def strToLower (s : String) : String :=
  String.mk (s.data.map charToLower)

/-- JavaScript `s.endsWith(pat)`. -/
def strEndsWith (s pat : String) : Bool :=
  decide (pat.data <:+ s.data)

/-- JavaScript `s.trim()`: whitespace stripped from both ends. -/
def strTrim (s : String) : String :=
  String.mk (((s.data.dropWhile Char.isWhitespace).reverse.dropWhile
    Char.isWhitespace).reverse)

/-- One categorized date-event, as in the `CategorizedDate` type of the
date-extraction route.  At runtime `category` is a plain string (the
TypeScript union is erased), so it is embedded as `String`. -/
structure CategorizedDate where
  date : String
  category : String
  specific_type : String
  source : String
  notes : Option String := none
deriving DecidableEq, Repr

/-- The fixed FAQ record (20 nullable string fields, 10 questions). -/
structure Faqs where
  last_rabies_vaccine_date : Option String
  last_rabies_vaccine_source : Option String
  last_fecal_exam_date : Option String
  last_fecal_exam_source : Option String
  last_heartworm_exam_or_treatment_date : Option String
  last_heartworm_exam_or_treatment_source : Option String
  last_wellness_screen_date : Option String
  last_wellness_screen_source : Option String
  last_dental_date : Option String
  last_dental_source : Option String
  last_dhpp_date : Option String
  last_dhpp_source : Option String
  last_lepto_date : Option String
  last_lepto_source : Option String
  last_influenza_date : Option String
  last_influenza_source : Option String
  last_flea_tick_prevention_date : Option String
  last_flea_tick_prevention_source : Option String
  last_lyme_date : Option String
  last_lyme_source : Option String
deriving DecidableEq, Repr

/-- The final response of the date-extraction route. -/
structure ProcessedSummary where
  faqs : Faqs
  all_dates : List CategorizedDate
deriving DecidableEq, Repr

/-- `findMostRecent`: filter, sort descending by date (stable, as
`Array.prototype.sort` is), return the first element or null. -/
def findMostRecent (fn : CategorizedDate → Bool) (dates : List CategorizedDate) :
    Option CategorizedDate :=
  ((dates.filter fn).mergeSort (fun a b => decide (b.date ≤ a.date))).head?

/-- Rabies question: ONLY vaccination category. -/
def rabiesRule (d : CategorizedDate) : Bool :=
  d.category == "vaccination" && strIncludes (strToLower d.specific_type) "rabies"

/-- Fecal exam question: ONLY exam category. -/
def fecalRule (d : CategorizedDate) : Bool :=
  d.category == "exam" && strIncludes (strToLower d.specific_type) "fecal"

/-- Heartworm question: ONLY exam/preventative_treatment categories. -/
def heartwormRule (d : CategorizedDate) : Bool :=
  (d.category == "exam" || d.category == "preventative_treatment") &&
    strIncludes (strToLower d.specific_type) "heartworm"

/-- Wellness/physical question: ONLY exam category. -/
def wellnessRule (d : CategorizedDate) : Bool :=
  d.category == "exam" &&
    (strIncludes (strToLower d.specific_type) "wellness" ||
     strIncludes (strToLower d.specific_type) "physical")

/-- Dental question: ONLY exam/surgery categories. -/
def dentalRule (d : CategorizedDate) : Bool :=
  (d.category == "exam" || d.category == "surgery") &&
    strIncludes (strToLower d.specific_type) "dental"

/-- DHPP/DA2P question: ONLY vaccination category. -/
def dhppRule (d : CategorizedDate) : Bool :=
  d.category == "vaccination" &&
    (strIncludes (strToLower d.specific_type) "dhpp" ||
     strIncludes (strToLower d.specific_type) "da2p")

/-- Leptospirosis question: ONLY vaccination category. -/
def leptoRule (d : CategorizedDate) : Bool :=
  d.category == "vaccination" && strIncludes (strToLower d.specific_type) "lepto"

/-- Influenza question: ONLY vaccination category. -/
def influenzaRule (d : CategorizedDate) : Bool :=
  d.category == "vaccination" && strIncludes (strToLower d.specific_type) "influenza"

/-- Flea/tick question: ONLY preventative_treatment category. -/
def fleaTickRule (d : CategorizedDate) : Bool :=
  d.category == "preventative_treatment" &&
    (strIncludes (strToLower d.specific_type) "flea" ||
     strIncludes (strToLower d.specific_type) "tick")

/-- Lyme question: ONLY vaccination category. -/
def lymeRule (d : CategorizedDate) : Bool :=
  d.category == "vaccination" && strIncludes (strToLower d.specific_type) "lyme"

/-- `deriveFAQsFromDates`: every field starts as null and is assigned the
selected entry's date/source when a match exists (`Option.map` models the
`if (x) { assign }` pattern on the initialized-to-null record). -/
def deriveFAQsFromDates (dates : List CategorizedDate) : Faqs :=
  let rabiesVaccine := findMostRecent rabiesRule dates
  let fecalExam := findMostRecent fecalRule dates
  let heartworm := findMostRecent heartwormRule dates
  let wellness := findMostRecent wellnessRule dates
  let dental := findMostRecent dentalRule dates
  let dhpp := findMostRecent dhppRule dates
  let lepto := findMostRecent leptoRule dates
  let influenza := findMostRecent influenzaRule dates
  let fleaTick := findMostRecent fleaTickRule dates
  let lyme := findMostRecent lymeRule dates
  { last_rabies_vaccine_date := rabiesVaccine.map (fun e => e.date)
    last_rabies_vaccine_source := rabiesVaccine.map (fun e => e.source)
    last_fecal_exam_date := fecalExam.map (fun e => e.date)
    last_fecal_exam_source := fecalExam.map (fun e => e.source)
    last_heartworm_exam_or_treatment_date := heartworm.map (fun e => e.date)
    last_heartworm_exam_or_treatment_source := heartworm.map (fun e => e.source)
    last_wellness_screen_date := wellness.map (fun e => e.date)
    last_wellness_screen_source := wellness.map (fun e => e.source)
    last_dental_date := dental.map (fun e => e.date)
    last_dental_source := dental.map (fun e => e.source)
    last_dhpp_date := dhpp.map (fun e => e.date)
    last_dhpp_source := dhpp.map (fun e => e.source)
    last_lepto_date := lepto.map (fun e => e.date)
    last_lepto_source := lepto.map (fun e => e.source)
    last_influenza_date := influenza.map (fun e => e.date)
    last_influenza_source := influenza.map (fun e => e.source)
    last_flea_tick_prevention_date := fleaTick.map (fun e => e.date)
    last_flea_tick_prevention_source := fleaTick.map (fun e => e.source)
    last_lyme_date := lyme.map (fun e => e.date)
    last_lyme_source := lyme.map (fun e => e.source) }

/-- Response assembly of the date-extraction route: `faqs` derived from the
extracted dates, `all_dates` the extracted list itself, untouched. -/
def processExtractedDates (dates : List CategorizedDate) : ProcessedSummary :=
  { faqs := deriveFAQsFromDates dates, all_dates := dates }

/-- The `enum` list of the `category` property in `dateExtractionSchema` sent
to the model (8 tags; `other` appears only in the TypeScript union). -/
def schemaCategoryEnum : List String :=
  ["vaccination", "certificate", "exam", "prescribed_medication",
   "preventative_treatment", "bloodwork", "surgery", "reminder"]

/-- The `category` union of the TypeScript `CategorizedDate` type of the
date-extraction route (9 tags). -/
def apiCategoryEnum : List String :=
  schemaCategoryEnum ++ ["other"]

/-- The only runtime validation the date-extraction route applies to the
parsed model response: `extractedData && extractedData.dates &&
Array.isArray(extractedData.dates)`.  `none` models a parse result without a
`dates` array; a present array is accepted as-is, element contents
unchecked. -/
def validateExtractedStructure (parsed : Option (List CategorizedDate)) :
    Except String (List CategorizedDate) :=
  match parsed with
  | none => Except.error "Invalid response structure: missing dates array"
  | some ds => Except.ok ds

/-- ISO-8601 calendar-date format `YYYY-MM-DD`: ten characters, digits with
hyphens at positions 4 and 7. -/
def isIso8601Date (s : String) : Bool :=
  match s.toList with
  | [y1, y2, y3, y4, h1, m1, m2, h2, d1, d2] =>
    y1.isDigit && y2.isDigit && y3.isDigit && y4.isDigit &&
    h1 == '-' && m1.isDigit && m2.isDigit &&
    h2 == '-' && d1.isDigit && d2.isDigit
  | _ => false

/-! ### Model fallback loops

Each attempt against one model name is summarized by its outcome
(`Except.ok` a parsed-and-validated result, `Except.error` the thrown error
message); the loops below are the control flow of the two routes over the
outcome each model call would produce. -/

/-- Fallback list of the structured-output date-extraction route. -/
def structuredModels : List String :=
  ["gemini-1.5-pro-latest", "gemini-1.5-pro", "gemini-1.5-flash-latest",
   "gemini-1.5-flash"]

/-- Fallback list of the legacy summary route. -/
def legacyModels : List String :=
  ["gemini-1.5-flash", "gemini-1.5-pro", "gemini-1.5-flash-latest",
   "gemini-1.5-pro-latest"]

/-- The error test of the legacy route's fallback loop:
`error.message.includes('RATE_LIMIT_EXCEEDED') || error.message.includes('429')`. -/
def isRateLimitError (msg : String) : Bool :=
  strIncludes msg "RATE_LIMIT_EXCEEDED" || strIncludes msg "429"

/-- Loop of the date-extraction route: first success wins, a failure records
`lastError` and continues; an exhausted list throws `lastError` (which is
still `undefined`, here `none`, when the list was empty). -/
def tryModelsStructured :
    List (Except String Nat) → Option String → Except (Option String) Nat
  | [], last => Except.error last
  | Except.ok a :: _, _ => Except.ok a
  | Except.error e :: rest, _ => tryModelsStructured rest (some e)

/-- The date-extraction route's fallback loop started with no error recorded. -/
def runStructuredFallback (outcomes : List (Except String Nat)) :
    Except (Option String) Nat :=
  tryModelsStructured outcomes none

/-- Loop of the legacy summary route: like the structured loop, except a
failure that is not a rate-limit error stops the fallback and is thrown at
once. -/
def tryModelsLegacy :
    List (Except String Nat) → Option String → Except (Option String) Nat
  | [], last => Except.error last
  | Except.ok a :: _, _ => Except.ok a
  | Except.error e :: rest, _ =>
    if isRateLimitError e then tryModelsLegacy rest (some e)
    else Except.error (some e)

/-- The legacy route's fallback loop started with no error recorded. -/
def runLegacyFallback (outcomes : List (Except String Nat)) :
    Except (Option String) Nat :=
  tryModelsLegacy outcomes none

/-- Truncation of an outcome list right after its first non-rate-limit
error: the part of the fallback list the legacy loop actually consumes. -/
def truncAtNonRateLimit : List (Except String Nat) → List (Except String Nat)
  | [] => []
  | Except.ok a :: rest => Except.ok a :: truncAtNonRateLimit rest
  | Except.error e :: rest =>
    if isRateLimitError e then Except.error e :: truncAtNonRateLimit rest
    else [Except.error e]

/-- The model names the structured loop actually attempts, given each
model's outcome paired with its name. -/
def structuredTrace : List (String × Except String Nat) → List String
  | [] => []
  | (n, Except.ok _) :: _ => [n]
  | (n, Except.error _) :: rest => n :: structuredTrace rest

/-- Modelled from the spec and claim wording: the result of the first model
whose call succeeds. -/
def firstSuccess : List (Except String Nat) → Option Nat
  | [] => none
  | Except.ok a :: _ => some a
  | Except.error _ :: rest => firstSuccess rest

/-- Modelled from the claim wording: the error of the last model tried
(the last error of the outcome list when no model succeeds). -/
def lastErrorOf (outcomes : List (Except String Nat)) : Option String :=
  outcomes.foldl
    (fun acc o => match o with | Except.ok _ => acc | Except.error e => some e)
    none

/-- Modelled from the claim wording (C4): the fallback stops at the first
model whose call succeeds, and when every model has been tried and failed it
fails reporting the error of the last model tried. -/
def claimedFallbackSpec (outcomes : List (Except String Nat))
    (r : Except (Option String) Nat) : Prop :=
  match firstSuccess outcomes with
  | some a => r = Except.ok a
  | none => r = Except.error (lastErrorOf outcomes)

/-! ### Upload request gates -/

/-- Metadata of one uploaded form-data file (its `name` and MIME `type`). -/
structure UploadFile where
  name : String
  mimeType : String
deriving DecidableEq, Repr

/-- How a route's request handling resolves before any model call: an early
error response with an HTTP status, or proceeding to the AI call. -/
inductive RouteOutcome where
  | earlyResponse (status : Nat) (error : String)
  | aiCall (fileCount : Nat)
deriving DecidableEq, Repr

/-- Request gate of the structured date-extraction route: missing API key →
500, empty `files` → 400, otherwise the Gemini fallback loop runs. -/
def ingestGate (apiKeyConfigured : Bool) (files : List UploadFile) :
    RouteOutcome :=
  if !apiKeyConfigured then RouteOutcome.earlyResponse 500 "Google API key not configured"
  else if files.isEmpty then RouteOutcome.earlyResponse 400 "No files provided"
  else RouteOutcome.aiCall files.length

/-- Request gate of the legacy summary route (same checks, same order). -/
def legacySummaryGate (apiKeyConfigured : Bool) (files : List UploadFile) :
    RouteOutcome :=
  if !apiKeyConfigured then RouteOutcome.earlyResponse 500 "Google API key not configured"
  else if files.isEmpty then RouteOutcome.earlyResponse 400 "No files provided"
  else RouteOutcome.aiCall files.length

/-- The PDF test of the text-extraction route: lower-cased name ends in
`.pdf` or lower-cased MIME type contains `pdf`. -/
def isPdfFile (f : UploadFile) : Bool :=
  strEndsWith (strToLower f.name) ".pdf" || strIncludes (strToLower f.mimeType) "pdf"

/-- Request gate of the OpenAI text-extraction route: missing API key → 500,
non-multipart content type → 400, no PDF among the files → 400, otherwise
the OpenAI call runs on the PDF files. -/
def summarizeGate (apiKeyConfigured : Bool) (contentType : String)
    (files : List UploadFile) : RouteOutcome :=
  if !apiKeyConfigured then RouteOutcome.earlyResponse 500 "Missing OPENAI_API_KEY"
  else if !(strIncludes contentType "multipart/form-data") then
    RouteOutcome.earlyResponse 400 "Expected multipart/form-data"
  else if (files.filter isPdfFile).isEmpty then
    RouteOutcome.earlyResponse 400 "No PDF files uploaded"
  else RouteOutcome.aiCall (files.filter isPdfFile).length

/-! ### PDF text extraction (`extractTextFromPdf`) -/

/-- One pdfjs text item: `some s` when its `str` field is the string `s`,
`none` when the item has no string-valued `str`. -/
abbrev TextItem := Option String

/-- One page of an opened pdfjs document: `Except.error` when
`getPage`/`getTextContent` throws, otherwise its text items.  A document is
its pages in order 1 .. numPages. -/
abbrev PdfPage := Except Unit (List TextItem)

/-- Per page: `items.map(str-or-empty).filter(Boolean)` — non-string `str`
becomes `""` and `filter(Boolean)` then drops every empty string. -/
def pageStrings (items : List TextItem) : List String :=
  (items.map (fun it => it.getD "")).filter (fun s => !s.data.isEmpty)

/-- `extractTextFromPdf`: page loop accumulating `strings.join(" ") + "\n"`
per page, a throwing page contributing nothing, then `trim()` on the whole. -/
def extractTextFromPdf (pages : List PdfPage) : String :=
  strTrim (pages.foldl
    (fun text pg =>
      match pg with
      | Except.ok items => text ++ String.intercalate " " (pageStrings items) ++ "\n"
      | Except.error _ => text)
    "")

/-- Concatenation of a list of strings in order. -/
def concatAll : List String → String
  | [] => ""
  | s :: rest => s ++ concatAll rest

/-- Modelled from the claim wording (C9): per ok page, ALL string-valued
`str` fields (empty ones included) joined by single spaces plus a newline;
an erroring page contributes nothing; the whole trimmed. -/
def extractTextClaimed (pages : List PdfPage) : String :=
  strTrim (concatAll (pages.map
    (fun pg =>
      match pg with
      | Except.ok items => String.intercalate " " (items.filterMap id) ++ "\n"
      | Except.error _ => "")))

/-- The claim amended: only the NON-EMPTY string-valued `str` fields are
joined (as `filter(Boolean)` drops empty strings). -/
def extractTextAmended (pages : List PdfPage) : String :=
  strTrim (concatAll (pages.map
    (fun pg =>
      match pg with
      | Except.ok items =>
        String.intercalate " " ((items.filterMap id).filter (fun s => !s.data.isEmpty)) ++ "\n"
      | Except.error _ => "")))

/-! ### Client-side `mergeFiles` -/

/-- A browser `File` as the client page uses it: duplicate detection reads
only `name` and `size`; `content` stands for the rest of the object's
identity. -/
structure BrowserFile where
  name : String
  size : Nat
  content : String := ""
deriving DecidableEq, Repr

/-- The duplicate test of `mergeFiles`:
`existingFile.name === newFile.name && existingFile.size === newFile.size`. -/
def sameFileKey (a b : BrowserFile) : Bool :=
  a.name == b.name && a.size == b.size

/-- `existingFiles.some(existingFile => ...)`: some collected file shares
the probe's (name, size). -/
def hasKey (acc : List BrowserFile) (f : BrowserFile) : Bool :=
  acc.any (fun g => sameFileKey g f)

/-- One iteration of the `for (const newFile of newFiles)` loop: push the
file unless some file already collected shares its (name, size). -/
def addFile (acc : List BrowserFile) (f : BrowserFile) : List BrowserFile :=
  if hasKey acc f then acc else acc ++ [f]

/-- `mergeFiles`: start from a copy of the existing list and push each
incoming file that is not yet a (name, size) duplicate. -/
def mergeFiles (existing : List BrowserFile) (incoming : List BrowserFile) :
    List BrowserFile :=
  incoming.foldl addFile existing

/-! ### Spec-side predicates for the FAQ derivation claims -/

/-- Modelled from the claim wording (C1): the pair of output fields for one
FAQ question is null/null when no entry matches the question's rule, and
otherwise is the date and source of a matching entry whose date string is
maximal among the matches. -/
def selects (rule : CategorizedDate → Bool) (dates : List CategorizedDate)
    (dOut sOut : Option String) : Prop :=
  (dates.filter rule = [] ∧ dOut = none ∧ sOut = none) ∨
  (∃ e, e ∈ dates.filter rule ∧ (∀ x ∈ dates.filter rule, x.date ≤ e.date) ∧
    dOut = some e.date ∧ sOut = some e.source)

/-- Modelled from the claim wording (C2): the two fields of one FAQ question
are null together, and when non-null they are the date and source of one and
the same input entry. -/
def pairedField (dates : List CategorizedDate) (dOut sOut : Option String) :
    Prop :=
  (dOut = none ↔ sOut = none) ∧
  ∀ d s, dOut = some d → sOut = some s →
    ∃ e, e ∈ dates ∧ e.date = d ∧ e.source = s

/-- Modelled from the claim wording (C3): an output date field is null or an
ISO-8601 date string. -/
def isoOrNull (dOut : Option String) : Prop :=
  dOut = none ∨ ∃ s, dOut = some s ∧ isIso8601Date s = true

/-! ### Concrete sample inputs used by witnesses and counterexamples -/

/-- A small well-formed extraction result (all dates ISO-8601). -/
def sampleDates : List CategorizedDate :=
  [{ date := "2023-05-01", category := "vaccination",
     specific_type := "Rabies 3yr", source := "Document 1" },
   { date := "2024-06-02", category := "exam",
     specific_type := "fecal exam", source := "Document 2" }]

/-- Two matching entries tying on the maximal date. -/
def tieDates : List CategorizedDate :=
  [{ date := "2024-01-01", category := "vaccination",
     specific_type := "rabies", source := "Document 1" },
   { date := "2024-01-01", category := "vaccination",
     specific_type := "rabies booster", source := "Document 2" }]

/-- An element whose category lies outside every fixed category list. -/
def bananaDate : CategorizedDate :=
  { date := "2024-01-01", category := "banana",
    specific_type := "mystery", source := "Document 1" }

/-! ## Lemmas about `findMostRecent` -/

theorem findMostRecent_eq_none_iff (fn : CategorizedDate → Bool)
    (dates : List CategorizedDate) :
    findMostRecent fn dates = none ↔ dates.filter fn = [] := by
  rw [findMostRecent, List.head?_eq_none_iff, ← List.length_eq_zero,
    List.length_mergeSort, List.length_eq_zero]

theorem findMostRecent_spec (fn : CategorizedDate → Bool)
    (dates : List CategorizedDate) (e : CategorizedDate)
    (h : findMostRecent fn dates = some e) :
    e ∈ dates.filter fn ∧ ∀ x ∈ dates.filter fn, x.date ≤ e.date := by
  have hperm :=
    List.mergeSort_perm (dates.filter fn)
      (fun a b : CategorizedDate => decide (b.date ≤ a.date))
  have hsorted :=
    @List.sorted_mergeSort CategorizedDate
      (fun a b : CategorizedDate => decide (b.date ≤ a.date))
      (fun a b c hab hbc => by
        simp only [decide_eq_true_eq] at hab hbc ⊢
        exact le_trans hbc hab)
      (fun a b => by
        simp only [Bool.or_eq_true, decide_eq_true_eq]
        exact le_total b.date a.date)
      (dates.filter fn)
  rw [findMostRecent] at h
  cases hms :
      (dates.filter fn).mergeSort
        (fun a b : CategorizedDate => decide (b.date ≤ a.date)) with
  | nil => rw [hms] at h; exact absurd h (by simp)
  | cons a t =>
    rw [hms] at h
    simp only [List.head?_cons, Option.some.injEq] at h
    subst h
    rw [hms] at hperm hsorted
    refine ⟨hperm.mem_iff.mp (List.mem_cons_self a t), ?_⟩
    intro x hx
    rcases List.mem_cons.mp (hperm.mem_iff.mpr hx) with hxa | hxt
    · subst hxa; exact le_refl _
    · have := (List.pairwise_cons.mp hsorted).1 x hxt
      simpa using this

theorem selects_findMostRecent (fn : CategorizedDate → Bool)
    (dates : List CategorizedDate) :
    selects fn dates ((findMostRecent fn dates).map (fun e => e.date))
      ((findMostRecent fn dates).map (fun e => e.source)) := by
  cases h : findMostRecent fn dates with
  | none =>
    exact Or.inl ⟨(findMostRecent_eq_none_iff fn dates).mp h, rfl, rfl⟩
  | some e =>
    obtain ⟨hmem, hmax⟩ := findMostRecent_spec fn dates e h
    exact Or.inr ⟨e, hmem, hmax, rfl, rfl⟩

theorem pairedField_findMostRecent (fn : CategorizedDate → Bool)
    (dates : List CategorizedDate) :
    pairedField dates ((findMostRecent fn dates).map (fun e => e.date))
      ((findMostRecent fn dates).map (fun e => e.source)) := by
  cases h : findMostRecent fn dates with
  | none => exact ⟨by simp, by simp⟩
  | some e =>
    refine ⟨by simp, ?_⟩
    intro d s hd hs
    simp only [Option.map_some', Option.some.injEq] at hd hs
    exact ⟨e, List.mem_of_mem_filter (findMostRecent_spec fn dates e h).1,
      hd, hs⟩

theorem isoOrNull_findMostRecent (fn : CategorizedDate → Bool)
    (dates : List CategorizedDate)
    (hiso : ∀ e ∈ dates, isIso8601Date e.date = true) :
    isoOrNull ((findMostRecent fn dates).map (fun e => e.date)) := by
  cases h : findMostRecent fn dates with
  | none => exact Or.inl rfl
  | some e =>
    refine Or.inr ⟨e.date, rfl, ?_⟩
    exact hiso e (List.mem_of_mem_filter (findMostRecent_spec fn dates e h).1)

/-! ## Claim theorems for the FAQ derivation -/

/-- C1: for every list of categorized date-events, `deriveFAQsFromDates`
fills each of the ten FAQ questions by filtering the list with that
question's rule (a category or category-set together with a case-insensitive
substring test on `specific_type`), selecting among the matches an entry of
lexicographically maximal date string, and writing that entry's date and
source into the question's two fields; a question with no matching entry
keeps null for both fields. -/
theorem faq_selection_correct (dates : List CategorizedDate) :
    selects rabiesRule dates (deriveFAQsFromDates dates).last_rabies_vaccine_date
      (deriveFAQsFromDates dates).last_rabies_vaccine_source ∧
    selects fecalRule dates (deriveFAQsFromDates dates).last_fecal_exam_date
      (deriveFAQsFromDates dates).last_fecal_exam_source ∧
    selects heartwormRule dates
      (deriveFAQsFromDates dates).last_heartworm_exam_or_treatment_date
      (deriveFAQsFromDates dates).last_heartworm_exam_or_treatment_source ∧
    selects wellnessRule dates (deriveFAQsFromDates dates).last_wellness_screen_date
      (deriveFAQsFromDates dates).last_wellness_screen_source ∧
    selects dentalRule dates (deriveFAQsFromDates dates).last_dental_date
      (deriveFAQsFromDates dates).last_dental_source ∧
    selects dhppRule dates (deriveFAQsFromDates dates).last_dhpp_date
      (deriveFAQsFromDates dates).last_dhpp_source ∧
    selects leptoRule dates (deriveFAQsFromDates dates).last_lepto_date
      (deriveFAQsFromDates dates).last_lepto_source ∧
    selects influenzaRule dates (deriveFAQsFromDates dates).last_influenza_date
      (deriveFAQsFromDates dates).last_influenza_source ∧
    selects fleaTickRule dates
      (deriveFAQsFromDates dates).last_flea_tick_prevention_date
      (deriveFAQsFromDates dates).last_flea_tick_prevention_source ∧
    selects lymeRule dates (deriveFAQsFromDates dates).last_lyme_date
      (deriveFAQsFromDates dates).last_lyme_source :=
  ⟨selects_findMostRecent rabiesRule dates,
   selects_findMostRecent fecalRule dates,
   selects_findMostRecent heartwormRule dates,
   selects_findMostRecent wellnessRule dates,
   selects_findMostRecent dentalRule dates,
   selects_findMostRecent dhppRule dates,
   selects_findMostRecent leptoRule dates,
   selects_findMostRecent influenzaRule dates,
   selects_findMostRecent fleaTickRule dates,
   selects_findMostRecent lymeRule dates⟩

/-- C2: for every input list and every one of the ten FAQ questions, the
question's date field is null exactly when its source field is null, and
when both are non-null they are the date and source of one and the same
input entry; the result is always the fixed 20-field `Faqs` record (by the
type of `deriveFAQsFromDates`). -/
theorem faq_fields_paired (dates : List CategorizedDate) :
    pairedField dates (deriveFAQsFromDates dates).last_rabies_vaccine_date
      (deriveFAQsFromDates dates).last_rabies_vaccine_source ∧
    pairedField dates (deriveFAQsFromDates dates).last_fecal_exam_date
      (deriveFAQsFromDates dates).last_fecal_exam_source ∧
    pairedField dates (deriveFAQsFromDates dates).last_heartworm_exam_or_treatment_date
      (deriveFAQsFromDates dates).last_heartworm_exam_or_treatment_source ∧
    pairedField dates (deriveFAQsFromDates dates).last_wellness_screen_date
      (deriveFAQsFromDates dates).last_wellness_screen_source ∧
    pairedField dates (deriveFAQsFromDates dates).last_dental_date
      (deriveFAQsFromDates dates).last_dental_source ∧
    pairedField dates (deriveFAQsFromDates dates).last_dhpp_date
      (deriveFAQsFromDates dates).last_dhpp_source ∧
    pairedField dates (deriveFAQsFromDates dates).last_lepto_date
      (deriveFAQsFromDates dates).last_lepto_source ∧
    pairedField dates (deriveFAQsFromDates dates).last_influenza_date
      (deriveFAQsFromDates dates).last_influenza_source ∧
    pairedField dates (deriveFAQsFromDates dates).last_flea_tick_prevention_date
      (deriveFAQsFromDates dates).last_flea_tick_prevention_source ∧
    pairedField dates (deriveFAQsFromDates dates).last_lyme_date
      (deriveFAQsFromDates dates).last_lyme_source :=
  ⟨pairedField_findMostRecent rabiesRule dates,
   pairedField_findMostRecent fecalRule dates,
   pairedField_findMostRecent heartwormRule dates,
   pairedField_findMostRecent wellnessRule dates,
   pairedField_findMostRecent dentalRule dates,
   pairedField_findMostRecent dhppRule dates,
   pairedField_findMostRecent leptoRule dates,
   pairedField_findMostRecent influenzaRule dates,
   pairedField_findMostRecent fleaTickRule dates,
   pairedField_findMostRecent lymeRule dates⟩

/-- C3: when every entry's date field is an ISO-8601 date string, every date
field of the FAQ record is an ISO-8601 date string or null (each non-null
output date is copied from some input entry's date field). -/
theorem faq_dates_iso (dates : List CategorizedDate)
    (hiso : ∀ e ∈ dates, isIso8601Date e.date = true) :
    isoOrNull (deriveFAQsFromDates dates).last_rabies_vaccine_date ∧
    isoOrNull (deriveFAQsFromDates dates).last_fecal_exam_date ∧
    isoOrNull (deriveFAQsFromDates dates).last_heartworm_exam_or_treatment_date ∧
    isoOrNull (deriveFAQsFromDates dates).last_wellness_screen_date ∧
    isoOrNull (deriveFAQsFromDates dates).last_dental_date ∧
    isoOrNull (deriveFAQsFromDates dates).last_dhpp_date ∧
    isoOrNull (deriveFAQsFromDates dates).last_lepto_date ∧
    isoOrNull (deriveFAQsFromDates dates).last_influenza_date ∧
    isoOrNull (deriveFAQsFromDates dates).last_flea_tick_prevention_date ∧
    isoOrNull (deriveFAQsFromDates dates).last_lyme_date :=
  ⟨isoOrNull_findMostRecent rabiesRule dates hiso,
   isoOrNull_findMostRecent fecalRule dates hiso,
   isoOrNull_findMostRecent heartwormRule dates hiso,
   isoOrNull_findMostRecent wellnessRule dates hiso,
   isoOrNull_findMostRecent dentalRule dates hiso,
   isoOrNull_findMostRecent dhppRule dates hiso,
   isoOrNull_findMostRecent leptoRule dates hiso,
   isoOrNull_findMostRecent influenzaRule dates hiso,
   isoOrNull_findMostRecent fleaTickRule dates hiso,
   isoOrNull_findMostRecent lymeRule dates hiso⟩

/-- C3 witness: the hypothesis and conclusion of `faq_dates_iso` at a
concrete input. -/
theorem faq_dates_iso_witness :
    (∀ e ∈ sampleDates, isIso8601Date e.date = true) ∧
    isoOrNull (deriveFAQsFromDates sampleDates).last_rabies_vaccine_date :=
  ⟨by decide, (faq_dates_iso sampleDates (by decide)).1⟩

/-- C5: `deriveFAQsFromDates` is a deterministic function of its input: two
runs on equal lists return equal FAQ records (ties on the maximal date
included, the stable sort fixing the choice). -/
theorem faq_derivation_deterministic (l1 l2 : List CategorizedDate)
    (h : l1 = l2) :
    deriveFAQsFromDates l1 = deriveFAQsFromDates l2 := by
  rw [h]

/-- C5 witness: two runs on the same list with a tie on the maximal date. -/
theorem faq_derivation_deterministic_witness :
    deriveFAQsFromDates tieDates = deriveFAQsFromDates tieDates :=
  faq_derivation_deterministic tieDates tieDates rfl

/-- C6: the derivation leaves its input unchanged (the embedding is of the
source's `filter`-then-sort-the-copy, which never writes the input array)
and the `all_dates` field of the route's response is the extracted list
itself, element for element. -/
theorem response_preserves_dates (dates : List CategorizedDate) :
    (processExtractedDates dates).all_dates = dates ∧
    (processExtractedDates dates).faqs = deriveFAQsFromDates dates :=
  ⟨rfl, rfl⟩

/-- C7 counterexample: the route's only response validation is the
`Array.isArray` check, so a `dates` element whose category is `"banana"` —
outside the 8-tag schema enum and the 9-tag type union alike — is accepted
and emitted unchanged in `all_dates`. -/
theorem category_enum_not_enforced :
    ¬ ∀ (ds out : List CategorizedDate),
        validateExtractedStructure (some ds) = Except.ok out →
        ∀ e ∈ (processExtractedDates out).all_dates,
          e.category ∈ apiCategoryEnum := by
  intro h
  have hmem : bananaDate ∈ (processExtractedDates [bananaDate]).all_dates :=
    List.mem_cons_self bananaDate []
  have := h [bananaDate] [bananaDate] rfl bananaDate hmem
  exact absurd this (by decide)

/-- C7 (amended): the schema sent to the model fixes the 8-tag category
enum, but the route itself validates only that `dates` is an array: any
parsed list is accepted verbatim and emitted verbatim in `all_dates`, so the
enum guarantee rests on the external service honoring the schema. -/
theorem category_validation_passthrough (ds : List CategorizedDate) :
    validateExtractedStructure (some ds) = Except.ok ds ∧
    validateExtractedStructure none =
      Except.error "Invalid response structure: missing dates array" ∧
    (processExtractedDates ds).all_dates = ds ∧
    schemaCategoryEnum =
      ["vaccination", "certificate", "exam", "prescribed_medication",
       "preventative_treatment", "bloodwork", "surgery", "reminder"] ∧
    apiCategoryEnum = schemaCategoryEnum ++ ["other"] :=
  ⟨rfl, rfl, rfl, rfl, rfl⟩

/-! ## Claim theorems for the model fallback loops -/

theorem tryModelsStructured_eq (outcomes : List (Except String Nat)) :
    ∀ last, tryModelsStructured outcomes last =
      match firstSuccess outcomes with
      | some a => Except.ok a
      | none =>
        Except.error (outcomes.foldl
          (fun acc o =>
            match o with | Except.ok _ => acc | Except.error e => some e)
          last) := by
  induction outcomes with
  | nil => intro last; rfl
  | cons o rest ih =>
    intro last
    cases o with
    | ok a => rfl
    | error e =>
      simp only [tryModelsStructured, firstSuccess, List.foldl]
      exact ih (some e)

theorem tryModelsLegacy_eq_trunc (outcomes : List (Except String Nat)) :
    ∀ last, tryModelsLegacy outcomes last =
      tryModelsStructured (truncAtNonRateLimit outcomes) last := by
  induction outcomes with
  | nil => intro last; rfl
  | cons o rest ih =>
    intro last
    cases o with
    | ok a => rfl
    | error e =>
      by_cases hrl : isRateLimitError e = true
      · simp only [tryModelsLegacy, truncAtNonRateLimit, hrl, if_true,
          tryModelsStructured]
        exact ih (some e)
      · have hrl' : isRateLimitError e = false := by simpa using hrl
        simp [tryModelsLegacy, truncAtNonRateLimit, tryModelsStructured, hrl']

theorem structuredTrace_take (pairs : List (String × Except String Nat)) :
    ∃ k, structuredTrace pairs = (pairs.map Prod.fst).take k := by
  induction pairs with
  | nil => exact ⟨0, rfl⟩
  | cons p rest ih =>
    obtain ⟨n, o⟩ := p
    cases o with
    | ok a => exact ⟨1, by simp [structuredTrace]⟩
    | error e =>
      obtain ⟨k, hk⟩ := ih
      exact ⟨k + 1, by simp [structuredTrace, hk]⟩

/-- C4 (amended): the structured date-extraction route tries its fixed
fallback list linearly, stops at the first success, and when every model has
failed reports the last model's error; the set of models it attempts is an
initial segment of its duplicate-free fallback list, so no model is retried.
The legacy summary route runs the same loop but only over the outcome list
truncated at its first non-rate-limit error: such an error aborts the
fallback and is reported without trying the remaining models. -/
theorem fallback_loops_characterized (outcomes : List (Except String Nat))
    (pairs : List (String × Except String Nat)) :
    claimedFallbackSpec outcomes (runStructuredFallback outcomes) ∧
    runLegacyFallback outcomes =
      runStructuredFallback (truncAtNonRateLimit outcomes) ∧
    (∃ k, structuredTrace pairs = (pairs.map Prod.fst).take k) ∧
    structuredModels.Nodup ∧ legacyModels.Nodup := by
  refine ⟨?_, tryModelsLegacy_eq_trunc outcomes none,
    structuredTrace_take pairs, by decide, by decide⟩
  unfold runStructuredFallback claimedFallbackSpec lastErrorOf
  rw [tryModelsStructured_eq outcomes none]
  cases hfs : firstSuccess outcomes <;> simp [hfs]

/-- C4 counterexample: on the legacy summary route a non-rate-limit failure
of the first model aborts the fallback, so the request fails with that error
even though the second model would have succeeded — against the claimed
linear try-them-all fallback. -/
theorem legacy_fallback_violates_linear_spec :
    runLegacyFallback [Except.error "boom", Except.ok 1] =
      Except.error (some "boom") ∧
    firstSuccess [Except.error "boom", Except.ok 1] = some 1 ∧
    ¬ claimedFallbackSpec [Except.error "boom", Except.ok 1]
        (runLegacyFallback [Except.error "boom", Except.ok 1]) := by
  have hb : isRateLimitError "boom" = false := by decide
  have h1 : runLegacyFallback [Except.error "boom", Except.ok 1] =
      Except.error (some "boom") := by
    simp [runLegacyFallback, tryModelsLegacy, hb]
  refine ⟨h1, rfl, ?_⟩
  intro hcl
  have h2 : runLegacyFallback [Except.error "boom", Except.ok 1] =
      Except.ok 1 := hcl
  rw [h1] at h2
  exact Except.noConfusion h2

/-! ## Claim theorems for the upload request gates -/

/-- C8: with the API key configured, a POST whose form data has no files is
answered 400 by both Gemini routes before any model call, and the
text-extraction route answers 400 before its OpenAI call whenever no
uploaded file's name or MIME type indicates a PDF. -/
theorem empty_upload_rejected (files : List UploadFile) (ct : String) :
    ingestGate true [] = RouteOutcome.earlyResponse 400 "No files provided" ∧
    legacySummaryGate true [] =
      RouteOutcome.earlyResponse 400 "No files provided" ∧
    (strIncludes ct "multipart/form-data" = true →
      (∀ f ∈ files, isPdfFile f = false) →
      summarizeGate true ct files =
        RouteOutcome.earlyResponse 400 "No PDF files uploaded") := by
  refine ⟨rfl, rfl, ?_⟩
  intro hct hnopdf
  have hfil : files.filter isPdfFile = [] := by
    rw [List.filter_eq_nil_iff]
    intro f hf
    simp [hnopdf f hf]
  simp [summarizeGate, hct, hfil]

/-- C8 witness: `empty_upload_rejected` with its hypotheses discharged at a
multipart request carrying one non-PDF file. -/
theorem empty_upload_rejected_witness :
    ingestGate true [] = RouteOutcome.earlyResponse 400 "No files provided" ∧
    summarizeGate true "multipart/form-data"
        [{ name := "notes.txt", mimeType := "text/plain" }] =
      RouteOutcome.earlyResponse 400 "No PDF files uploaded" :=
  ⟨(empty_upload_rejected [] "x").1,
   (empty_upload_rejected [{ name := "notes.txt", mimeType := "text/plain" }]
      "multipart/form-data").2.2 (by decide) (by decide)⟩

/-! ## Claim theorems for `extractTextFromPdf` -/

theorem pageStrings_eq_amended (items : List TextItem) :
    pageStrings items = (items.filterMap id).filter (fun s => !s.data.isEmpty) := by
  induction items with
  | nil => rfl
  | cons it rest ih =>
    cases it with
    | none =>
      simp only [pageStrings, List.map_cons, List.filterMap_cons] at ih ⊢
      simpa using ih
    | some s =>
      simp only [pageStrings, List.map_cons, List.filterMap_cons,
        Option.getD_some, id] at ih ⊢
      rw [List.filter_cons, List.filter_cons, ih]

theorem extractText_inner_eq (pages : List PdfPage) :
    ∀ acc : String,
      pages.foldl
        (fun text pg =>
          match pg with
          | Except.ok items =>
            text ++ String.intercalate " " (pageStrings items) ++ "\n"
          | Except.error _ => text)
        acc
      = acc ++ concatAll (pages.map
          (fun pg =>
            match pg with
            | Except.ok items =>
              String.intercalate " "
                ((items.filterMap id).filter (fun s => !s.data.isEmpty)) ++ "\n"
            | Except.error _ => "")) := by
  induction pages with
  | nil => intro acc; simp [concatAll]
  | cons p rest ih =>
    intro acc
    cases p with
    | ok items =>
      simp only [List.foldl_cons, List.map_cons, concatAll]
      rw [ih, pageStrings_eq_amended]
      simp only [String.append_assoc]
    | error u =>
      simp only [List.foldl_cons, List.map_cons, concatAll]
      rw [ih, String.empty_append]

/-- C9 counterexample: a text item whose `str` is the empty string is
string-valued, yet `filter(Boolean)` drops it, so a page with items
`"a"`, `""`, `"b"` yields `"a b"` while the claim's join of all
string-valued `str` fields yields `"a  b"`. -/
theorem extractText_claim_false :
    extractTextFromPdf [Except.ok [some "a", some "", some "b"]] = "a b" ∧
    extractTextClaimed [Except.ok [some "a", some "", some "b"]] = "a  b" ∧
    extractTextFromPdf [Except.ok [some "a", some "", some "b"]] ≠
      extractTextClaimed [Except.ok [some "a", some "", some "b"]] := by
  refine ⟨by decide, by decide, by decide⟩

/-- C9 (amended): `extractTextFromPdf` returns the concatenation, in page
order, of each page's text — its items' NON-EMPTY string-valued `str`
fields joined by single spaces, a newline after each page — the whole
trimmed; a page whose processing throws contributes nothing (not even its
newline) while every other page is still included. -/
theorem extractText_characterized (pages pre post : List PdfPage) :
    extractTextFromPdf pages = extractTextAmended pages ∧
    extractTextFromPdf (pre ++ Except.error () :: post) =
      extractTextFromPdf (pre ++ post) := by
  constructor
  · unfold extractTextFromPdf extractTextAmended
    rw [extractText_inner_eq pages "", String.empty_append]
  · unfold extractTextFromPdf
    rw [List.foldl_append, List.foldl_append, List.foldl_cons]

/-! ## Claim theorems for `mergeFiles` -/

theorem mergeFiles_decomp : ∀ (incoming acc : List BrowserFile),
    ∃ app, mergeFiles acc incoming = acc ++ app ∧
      app.Sublist incoming ∧
      (∀ f ∈ app, ∀ g ∈ acc, sameFileKey g f = false) ∧
      app.Pairwise (fun a b => sameFileKey a b = false) := by
  intro incoming
  induction incoming with
  | nil =>
    intro acc
    exact ⟨[], by simp [mergeFiles], List.nil_sublist [], by simp,
      List.Pairwise.nil⟩
  | cons f rest ih =>
    intro acc
    by_cases hdup : hasKey acc f = true
    · obtain ⟨app, h1, h2, h3, h4⟩ := ih acc
      refine ⟨app, ?_, h2.cons f, h3, h4⟩
      rw [mergeFiles] at h1 ⊢
      rw [List.foldl_cons]
      show List.foldl addFile (addFile acc f) rest = acc ++ app
      rw [addFile, if_pos hdup]
      exact h1
    · have hdup' : hasKey acc f = false := by simpa using hdup
      obtain ⟨app, h1, h2, h3, h4⟩ := ih (acc ++ [f])
      have hacc : ∀ g ∈ acc, sameFileKey g f = false := by
        intro g hg
        have := List.any_eq_false.mp hdup' g hg
        simpa using this
      refine ⟨f :: app, ?_, h2.cons₂ f, ?_, ?_⟩
      · rw [mergeFiles] at h1 ⊢
        rw [List.foldl_cons]
        show List.foldl addFile (addFile acc f) rest = acc ++ f :: app
        rw [addFile, if_neg (by simp [hdup'])]
        rw [h1, List.append_assoc]
        rfl
      · intro x hx g hg
        rcases List.mem_cons.mp hx with hxf | hxa
        · subst hxf; exact hacc g hg
        · exact h3 x hxa g (List.mem_append_left [f] hg)
      · refine List.pairwise_cons.mpr ⟨?_, h4⟩
        intro b hb
        exact h3 b hb f (by simp)

theorem hasKey_mergeFiles_mono (incoming acc : List BrowserFile)
    (x : BrowserFile) (h : hasKey acc x = true) :
    hasKey (mergeFiles acc incoming) x = true := by
  obtain ⟨app, h1, _, _, _⟩ := mergeFiles_decomp incoming acc
  rw [h1, hasKey, List.any_append]
  rw [hasKey] at h
  simp [h]

theorem hasKey_mergeFiles_of_mem : ∀ (incoming acc : List BrowserFile)
    (f : BrowserFile), f ∈ incoming →
    hasKey (mergeFiles acc incoming) f = true := by
  intro incoming
  induction incoming with
  | nil => intro acc f hf; exact absurd hf (List.not_mem_nil f)
  | cons g rest ih =>
    intro acc f hf
    have hstep : mergeFiles acc (g :: rest) = mergeFiles (addFile acc g) rest := by
      rw [mergeFiles, List.foldl_cons]; rfl
    rcases List.mem_cons.mp hf with hfg | hfr
    · subst hfg
      rw [hstep]
      apply hasKey_mergeFiles_mono
      rw [addFile]
      by_cases hk : hasKey acc f = true
      · rw [if_pos hk]; exact hk
      · rw [if_neg hk, hasKey, List.any_append]
        have : sameFileKey f f = true := by simp [sameFileKey]
        simp [this]
    · rw [hstep]
      exact ih (addFile acc g) f hfr

theorem mergeFiles_noop : ∀ (incoming acc : List BrowserFile),
    (∀ f ∈ incoming, hasKey acc f = true) → mergeFiles acc incoming = acc := by
  intro incoming
  induction incoming with
  | nil => intro acc _; rfl
  | cons g rest ih =>
    intro acc h
    have hstep : mergeFiles acc (g :: rest) = mergeFiles (addFile acc g) rest := by
      rw [mergeFiles, List.foldl_cons]; rfl
    rw [hstep, addFile, if_pos (h g (List.mem_cons_self g rest))]
    exact ih acc (fun f hf => h f (List.mem_cons.mpr (Or.inr hf)))

/-- C10: `mergeFiles` returns the existing list followed by an
order-preserving selection of the incoming files whose (name, size) pair is
not yet present: the existing list is a prefix of the result, the appended
part is a sublist of the incoming list whose keys clash neither with the
existing list nor with each other, every incoming (name, size) pair occurs
in the result, and merging the same incoming list again changes nothing
(idempotence). -/
theorem mergeFiles_correct (existing incoming : List BrowserFile) :
    (∃ app, mergeFiles existing incoming = existing ++ app ∧
      app.Sublist incoming ∧
      (∀ f ∈ app, ∀ g ∈ existing, sameFileKey g f = false) ∧
      app.Pairwise (fun a b => sameFileKey a b = false)) ∧
    (∀ f ∈ incoming, hasKey (mergeFiles existing incoming) f = true) ∧
    mergeFiles (mergeFiles existing incoming) incoming =
      mergeFiles existing incoming :=
  ⟨mergeFiles_decomp incoming existing,
   fun f hf => hasKey_mergeFiles_of_mem incoming existing f hf,
   mergeFiles_noop incoming (mergeFiles existing incoming)
     (fun f hf => hasKey_mergeFiles_of_mem incoming existing f hf)⟩

end VetRecords
